import Mathlib

/-!
Verification development for the PCA module of toolbx_pdb (src/PCA.py).

The Python code is shallowly embedded as executable Lean definitions:

* Python strings are Lean strings; the helpers used by the code
  (whitespace split, slicing, strip, lstrip, isalpha, isdigit) are modelled
  over the underlying character lists so that everything reduces by rfl.
* Floating point values are kept abstract: every definition is parametric in
  a value type V and a parse function (String → Option V) standing for the
  Python float() conversion (none models a ValueError).  All the properties
  proved here are independent of the numeric interpretation.
* A Python dict is an association list; iteration order is list order and
  dict.keys() is the list of first components.
* Fatal control flow (sys.exit after a printed diagnostic, uncaught
  IndexError / KeyError / ValueError / UnboundLocalError) is modelled with
  Except: distinct error constructors correspond to the distinct ways the
  process terminates.
* matplotlib is treated as a black box renderer; what is recorded of a
  rendering call is the data handed to it: the scatter groups and the
  sequence of (label, position) annotation calls.  numpy arrays are lists;
  the only numpy behaviour that is modelled is that indexing an empty
  np.array([]) with two indices raises IndexError.
-/

namespace ToolbxPdb

/-! ## Python string primitives -/

/-- Splitting a character list at every separator satisfying p, keeping
empty segments (the semantics of repeated splitting in Python). -/
def splitPred (p : Char → Bool) : List Char → List (List Char)
  | [] => [[]]
  | a :: t =>
    if p a then [] :: splitPred p t
    else
      match splitPred p t with
      | [] => [[a]]
      | h :: r => (a :: h) :: r

/-- Model of the Python str.split() with no argument: split on whitespace
runs and drop the empty fields. -/
def lineFields (line : String) : List String :=
  ((splitPred (fun c => c.isWhitespace) line.data).filter (fun f => f ≠ [])).map
    (fun f => String.mk f)

/-- Model of the Python slice line[a:b] (out-of-range indices truncate). -/
def pySlice (s : String) (a b : Nat) : String :=
  String.mk ((s.data.drop a).take (b - a))

/-- Model of the Python str.strip() with no argument. -/
def pyStrip (s : String) : String :=
  String.mk
    (((s.data.dropWhile (fun c => c.isWhitespace)).reverse.dropWhile
      (fun c => c.isWhitespace)).reverse)

/-- Model of the Python str.isalpha(): nonempty and all alphabetic. -/
def pyIsAlpha (s : String) : Bool :=
  !s.data.isEmpty && s.data.all (fun c => c.isAlpha)

/-- Model of the Python str.isdigit(): nonempty and all digits. -/
def pyIsDigit (s : String) : Bool :=
  !s.data.isEmpty && s.data.all (fun c => c.isDigit)

/-- Model of the residue-key normalisation x.split("_")[0].lstrip("0")
applied to one residue identifier. -/
def resKeyOf (x : String) : String :=
  String.mk (((splitPred (fun c => c = '_') x.data).headD []).dropWhile
    (fun c => c = '0'))

/-- The normalised residue number list built in makePCAcoords from the
residue identifier list of the complex. -/
def resNumbersOf (resList : List String) : List String :=
  resList.map resKeyOf

/-! ## Sorting of conformation names (Python sorted on strings) -/

/-- Lexicographic comparison of character lists, by code point. -/
def charsLe : List Char → List Char → Bool
  | [], _ => true
  | _ :: _, [] => false
  | a :: as, b :: bs => if a < b then true else if a = b then charsLe as bs else false

/-- The string order used by the Python sorted() builtin. -/
def strLeP (a b : String) : Prop := charsLe a.data b.data = true

instance : DecidableRel strLeP := fun _ _ => instDecidableEqBool _ _

/-- Model of Python sorted() on a list of strings. -/
def pySorted (l : List String) : List String := List.insertionSort strLeP l

/-! ## Data model: conformations and analysis state -/

/-- The data reachable from one entry of the conformations dictionary:
the contents of the file at key 'path', the two residue lists of the
complex at key 'complex', and the scalar metrics stored under further
string keys. -/
structure Conf (V : Type) where
  lines : List String
  residuesConsensus : List String
  residuesFull : List String
  metrics : List (String × V)
deriving DecidableEq

/-- The state of a Principal_component_analysis instance. -/
structure PState (V : Type) where
  conformations : List (String × Conf V)
  pcaCoordsArray : Option (List (List V))
  vars_data : Option (List (String × List V))
deriving DecidableEq

/-! ## Coordinate extraction (getPDBcoord) -/

/-- Ways the extraction terminates the process: the deliberate
print-and-sys.exit on an unrecognized format, an uncaught IndexError from
list indexing, and an uncaught ValueError from float(). -/
inductive ExtractErr
  | formatExit
  | indexErr
  | parseErr
deriving DecidableEq

/-- The per-line behaviour after the residue column has been resolved to
resCol: membership test against the residue filter, alpha-carbon test on
field 2, then fixed-width parsing of the three coordinate columns. -/
def afterCol (pf : String → Option V) (resNumbers : List String) (line : String)
    (ll : List String) (resCol : Nat) : Except ExtractErr (List V) :=
  match ll[resCol]? with
  | none => .error .indexErr
  | some rv =>
    if resNumbers.contains rv && (ll[2]? == some "CA") then
      match pf (pyStrip (pySlice line 31 39)), pf (pyStrip (pySlice line 39 47)),
          pf (pyStrip (pySlice line 47 55)) with
      | some x, some y, some z => .ok [x, y, z]
      | _, _, _ => .error .parseErr
    else .ok []

/-- The coordinates contributed by one pdb line: nothing for short or
non-ATOM lines; otherwise the column layout of field 4 decides where the
residue number lives, any other layout being fatal. -/
def lineCoords (pf : String → Option V) (resNumbers : List String) (line : String) :
    Except ExtractErr (List V) :=
  let ll := lineFields line
  if 1 < ll.length then
    if ll[0]? = some "ATOM" then
      match ll[4]? with
      | none => .error .indexErr
      | some f4 =>
        if pyIsAlpha f4 then afterCol pf resNumbers line ll 5
        else if pyIsDigit f4 then afterCol pf resNumbers line ll 4
        else .error .formatExit
    else .ok []
  else .ok []

/-- The accumulator loop of getPDBcoord: confCoords grows by concatenation
over the lines of the file. -/
def getPDBcoordAux (pf : String → Option V) (resNumbers : List String) :
    List String → List V → Except ExtractErr (List V)
  | [], acc => .ok acc
  | l :: ls, acc =>
    match lineCoords pf resNumbers l with
    | .error e => .error e
    | .ok cs => getPDBcoordAux pf resNumbers ls (acc ++ cs)

/-- Model of getPDBcoord: read the file lines and accumulate the C-alpha
coordinates of the residues in the filter. -/
def getPDBcoord (pf : String → Option V) (lines : List String)
    (resNumbers : List String) : Except ExtractErr (List V) :=
  getPDBcoordAux pf resNumbers lines []

/-- Non-accumulator form of the extraction loop, used to reason about
getPDBcoord. -/
def flatCoords (pf : String → Option V) (resNumbers : List String) :
    List String → Except ExtractErr (List V)
  | [] => .ok []
  | l :: ls =>
    match lineCoords pf resNumbers l with
    | .error e => .error e
    | .ok cs =>
      match flatCoords pf resNumbers ls with
      | .error e => .error e
      | .ok rest => .ok (cs ++ rest)

/-- Residue value that a line is matched against, following the column
resolution rule (alphabetic field 4: field 5; numeric field 4: field 4). -/
def residueVal (ll : List String) : Option String :=
  match ll[4]? with
  | none => none
  | some f4 =>
    if pyIsAlpha f4 then ll[5]?
    else if pyIsDigit f4 then ll[4]?
    else none

/-- Specification-side predicate: a line that contributes coordinates
(an atom record whose resolved residue number is in the filter and whose
atom name field is the alpha-carbon designator). -/
def matchedLine (resNumbers : List String) (line : String) : Bool :=
  let ll := lineFields line
  decide (1 < ll.length) && (ll[0]? == some "ATOM") &&
    (match residueVal ll with
     | none => false
     | some rv => resNumbers.contains rv && (ll[2]? == some "CA"))

/-- Specification-side triple: the three fixed-width coordinate columns
of a line, stripped and parsed, in x y z order. -/
def tripleParts (pf : String → Option V) (line : String) : List V :=
  (pf (pyStrip (pySlice line 31 39))).toList ++
    (pf (pyStrip (pySlice line 39 47))).toList ++
    (pf (pyStrip (pySlice line 47 55))).toList

/-- A line on which the column layout can be resolved without any fatal
outcome: either the line is skipped (short or not an atom record), or
field 4 exists and resolves (alphabetic with an existing field 5, or
numeric). -/
def lineOk (line : String) : Bool :=
  let ll := lineFields line
  !(decide (1 < ll.length)) || !(ll[0]? == some "ATOM") ||
    (match ll[4]? with
     | none => false
     | some f4 =>
       if pyIsAlpha f4 then (ll[5]?).isSome
       else pyIsDigit f4)

/-- Boolean holding of a predicate under an optional value (false when
absent). -/
def optHolds (p : String → Bool) : Option String → Bool
  | none => false
  | some s => p s

/-- Correspondence between an atom record in the chain-present format and
the same atom record in the chain-absent format: both are atom records,
field 4 of the first is alphabetic while field 4 of the second is numeric
(hence not alphabetic), the residue number (field 5 of the first, field 4
of the second) agrees, the atom name field agrees, and the three
fixed-width coordinate column slices agree. -/
def chainPair (c n : String) : Prop :=
  (lineFields c)[0]? = some "ATOM" ∧ (lineFields n)[0]? = some "ATOM" ∧
  optHolds pyIsAlpha (lineFields c)[4]? = true ∧
  optHolds pyIsDigit (lineFields n)[4]? = true ∧
  (lineFields c)[5]? = (lineFields n)[4]? ∧
  (lineFields c)[2]? = (lineFields n)[2]? ∧
  pySlice c 31 39 = pySlice n 31 39 ∧
  pySlice c 39 47 = pySlice n 39 47 ∧
  pySlice c 47 55 = pySlice n 47 55

/-- Line-wise correspondence of two structure files describing the same
atoms: each pair of lines is either literally equal or a chain-present /
chain-absent pair for the same atom. -/
def lineEquiv (c n : String) : Prop := c = n ∨ chainPair c n

/-! ## Feature matrix construction (makePCAcoords) -/

/-- Ways makePCAcoords terminates the process: a propagated extraction
error, an uncaught KeyError on a dict access, the print-and-exit on
unequal feature vector lengths (carrying the reported name/length table),
and the print-and-exit on an all-empty batch. -/
inductive BuildErr
  | extract (e : ExtractErr)
  | keyErr
  | lengthMismatch (report : List (String × Nat))
  | emptyCoords
deriving DecidableEq

/-- The residue list selected by the consensusResidues flag. -/
def resListOf (consensusResidues : Bool) (c : Conf V) : List String :=
  if consensusResidues then c.residuesConsensus else c.residuesFull

/-- The feature vector of one conformation: extraction over its file with
its normalised residue numbers. -/
def confCoords (pf : String → Option V) (consensusResidues : Bool) (c : Conf V) :
    Except BuildErr (List V) :=
  match getPDBcoord pf c.lines (resNumbersOf (resListOf consensusResidues c)) with
  | .error e => .error (.extract e)
  | .ok v => .ok v

/-- The conformation loop of makePCAcoords, iterating the given name list
and collecting one feature vector per name through the dict lookup. -/
def coordsLoop (pf : String → Option V) (getConf : String → Option (Conf V))
    (consensusResidues : Bool) : List String → Except BuildErr (List (List V))
  | [] => .ok []
  | n :: ns =>
    match getConf n with
    | none => .error .keyErr
    | some c =>
      match confCoords pf consensusResidues c with
      | .error e => .error e
      | .ok v =>
        match coordsLoop pf getConf consensusResidues ns with
        | .error e => .error e
        | .ok rest => .ok (v :: rest)

/-- The list of feature vectors of a state, in sorted conformation name
order (the contents of allConfCoords at the end of the loop). -/
def extractAll (pf : String → Option V) (s : PState V) (consensusResidues : Bool) :
    Except BuildErr (List (List V)) :=
  coordsLoop pf (fun n => s.conformations.lookup n) consensusResidues
    (pySorted (s.conformations.map Prod.fst))

/-- Model of makePCAcoords: build the feature vectors in sorted name order,
then run the two validations (equal lengths against the first row, then
non-emptiness), finally store the matrix in pcaCoordsArray. -/
def makePCAcoords (pf : String → Option V) (s : PState V) (consensusResidues : Bool) :
    Except BuildErr (PState V) :=
  match extractAll pf s consensusResidues with
  | .error e => .error e
  | .ok allConfCoords =>
    if !(allConfCoords.all (fun x => x.length == (allConfCoords.headD []).length)) then
      .error (.lengthMismatch
        ((pySorted (s.conformations.map Prod.fst)).zip (allConfCoords.map List.length)))
    else if allConfCoords.all (fun x => x.length == 0) then
      .error .emptyCoords
    else .ok { s with pcaCoordsArray := some allConfCoords }

/-! ## Metric collection (makePCAmetric) -/

/-- Appending a value to the list stored under a key of the vars_data
dict (the statement self.vars_data[varName].append(confVar)). -/
def updateAssoc (k : String) (v : V) : List (String × List V) → List (String × List V)
  | [] => []
  | (a, l) :: t => if a = k then (a, l ++ [v]) :: t else (a, l) :: updateAssoc k v t

/-- The inner loop of makePCAmetric over the sorted variable names of the
dict being built; a missing metric key of a conformation is an uncaught
KeyError. -/
def innerMetricLoop (c : Conf V) : List String → List (String × List V) →
    Except BuildErr (List (String × List V))
  | [], vd => .ok vd
  | k :: ks, vd =>
    match c.metrics.lookup k with
    | none => .error .keyErr
    | some v => innerMetricLoop c ks (updateAssoc k v vd)

/-- The conformation loop of makePCAmetric in the given name order. -/
def metricLoop (getConf : String → Option (Conf V)) : List String →
    List (String × List V) → Except BuildErr (List (String × List V))
  | [], vd => .ok vd
  | n :: ns, vd =>
    match getConf n with
    | none => .error .keyErr
    | some c =>
      match innerMetricLoop c (pySorted (vd.map Prod.fst)) vd with
      | .error e => .error e
      | .ok vd2 => metricLoop getConf ns vd2

/-- Model of makePCAmetric: initialise vars_data with one empty series for
the metric, then append every conformation value in sorted name order. -/
def makePCAmetric (s : PState V) (metric : String) : Except BuildErr (PState V) :=
  match metricLoop (fun n => s.conformations.lookup n)
      (pySorted (s.conformations.map Prod.fst)) [(metric, [])] with
  | .error e => .error e
  | .ok vd => .ok { s with vars_data := some vd }

/-! ## Rendering (pcaSubplot_vars and pcaSubplot) -/

/-- Ways a subplot call terminates the process: an IndexError from
two-index access into an empty np.array([]), and the unbound local ax of
pcaSubplot when dim is neither 2 nor 3. -/
inductive RenderErr
  | indexErr
  | unboundAx
deriving DecidableEq

/-- The template partition loop at the top of pcaSubplot_vars, appending
each template position, respectively each plain data value and position,
to the three accumulators. -/
def splitTemplatesAux (template_list : List String) :
    List (String × V × List V) → List (List V) → List V → List (List V) →
    List (List V) × List V × List (List V)
  | [], tp, cd, cp => (tp, cd, cp)
  | (l, d, x) :: rest, tp, cd, cp =>
    if template_list.contains l then
      splitTemplatesAux template_list rest (tp ++ [x]) cd cp
    else
      splitTemplatesAux template_list rest tp (cd ++ [d]) (cp ++ [x])

/-- The values of templatePosition, confData and confPosition after the
partition loop of pcaSubplot_vars over zip(labels, varData, X_r). -/
def splitTemplates (labels : List String) (varData : List V) (X_r : List (List V))
    (template_list : List String) : List (List V) × List V × List (List V) :=
  splitTemplatesAux template_list (labels.zip (varData.zip X_r)) [] [] []

/-- What a metric-colored subplot hands to the plotting backend: the
template scatter positions, the colormapped scatter data and positions,
and the annotation calls (label with its projected point). -/
structure VarsOut (V : Type) where
  templatePosition : List (List V)
  confData : List V
  confPosition : List (List V)
  annots : List (String × List V)
deriving DecidableEq

/-- What a plain subplot hands to the plotting backend. -/
structure PlainOut (V : Type) where
  annots : List (String × List V)
deriving DecidableEq

/-- Model of pcaSubplot_vars.  The partition into templates and general
conformations happens first; in the 2D and 3D branches the conformation
scatter then the template scatter are issued (an empty group means
np.array([]) is indexed with two indices: IndexError), and finally the
annotation loop runs - over all labels in 2D, only over nonempty labels
in 3D.  The varName, PCs_round and dpiVal arguments only feed axis texts
and figure resolution, which are not recorded. -/
def pcaSubplot_vars (X_r : List (List V)) (dim : Nat) (varData : List V)
    (varName : String) (PCs_round : List V) (labels : List String)
    (template_list : List String) (dpiVal : Nat) : Except RenderErr (VarsOut V) :=
  match splitTemplates labels varData X_r template_list with
  | (tp, cd, cp) =>
    if dim = 2 then
      if cp.isEmpty then .error .indexErr
      else if tp.isEmpty then .error .indexErr
      else .ok ⟨tp, cd, cp, labels.zip X_r⟩
    else if dim = 3 then
      if cp.isEmpty then .error .indexErr
      else if tp.isEmpty then .error .indexErr
      else .ok ⟨tp, cd, cp, (labels.zip X_r).filter (fun p => p.1 != "")⟩
    else .ok ⟨tp, cd, cp, []⟩

/-- Model of pcaSubplot.  The 2D branch annotates every label, the 3D
branch only nonempty labels; any other dim reaches the axis-label code
with the local ax never assigned. -/
def pcaSubplot (X_r : List (List V)) (dim : Nat) (PCs_round : List V)
    (labels : List String) (template_list : List String) (dpiVal : Nat) :
    Except RenderErr (PlainOut V) :=
  if dim = 2 then .ok ⟨labels.zip X_r⟩
  else if dim = 3 then .ok ⟨(labels.zip X_r).filter (fun p => p.1 != "")⟩
  else .error .unboundAx

/-! ## Figure generation (plotPCAfig) -/

/-- Ways plotPCAfig terminates the process: the UnboundLocalError on the
local var_data when the requested metric is missing, or a propagated
subplot error. -/
inductive PlotErr
  | unboundLocal
  | render (e : RenderErr)
deriving DecidableEq

/-- Console output of plotPCAfig.  Printed float formatting is not
modelled; the two variance reports carry the data they print. -/
inductive PlotEvent (V : Type)
  | printStr (s : String)
  | varianceReport (dim : Nat) (ratios : List V)
  | roundedReport (ratios : List V)
deriving DecidableEq

/-- First line printed when pcaCoordsArray is still None. -/
def notReadyMsg1 : String := "The coords onto which apply the PCA have to be extracted"

/-- Second line printed when pcaCoordsArray is still None. -/
def notReadyMsg2 : String := "First run initPCA() then generateProtCoords()"

/-- The string actually printed by the missing-metric warning: the
format call binds to the second literal only, so the placeholder stays
unsubstituted and the metric name never appears. -/
def missingMetricMsg : String := "The variable \x7b\x7d is not in the loaded set"

/-- The axis title chosen for a metric. -/
def varAxisOf (metric : String) : String :=
  if metric = "tanimoto" then "Tanimoto coefficient"
  else if metric = "jaccard" then "Jaccard distance"
  else metric

/-- Python truthiness of the var_data local (a list or None). -/
def pyTruthy : Option (List V) → Bool
  | none => false
  | some l => !l.isEmpty

/-- The subplot call recorded for a produced figure. -/
inductive RenderCall (V : Type)
  | vars (out : VarsOut V)
  | plain (out : PlainOut V)
deriving DecidableEq

/-- The observable effects of one plotPCAfig call: console output, the
image files written by savefig, whether a PCA was fitted, and the subplot
calls issued. -/
structure PlotEff (V : Type) where
  printed : List (PlotEvent V)
  files : List String
  pcaRun : Bool
  renders : List (RenderCall V)
deriving DecidableEq

/-- Model of plotPCAfig.  The function is parametric in the fitted PCA
transform pcaT (the sklearn black box), which yields the projected rows
X_r and the explained variance ratios.  The local var_data is an
Option (Option (List V)): the outer none models the Python local being
unbound, which is exactly the state left by the missing-metric warning
branch.  plotPCAfig assigns no instance attribute, so the returned state
is the input state. -/
def plotPCAfig (pcaT : List (List V) → Nat → List (List V) × List V)
    (s : PState V) (projName metric : String) (labels : List String) (dim : Nat)
    (templates : List String) : Except PlotErr (PState V × PlotEff V) :=
  match s.pcaCoordsArray with
  | none =>
    .ok (s, ⟨[.printStr notReadyMsg1, .printStr notReadyMsg2], [], false, []⟩)
  | some arr =>
    let dpiVal := 800
    let Xr := (pcaT arr dim).1
    let ratios := (pcaT arr dim).2
    let printed0 : List (PlotEvent V) :=
      [.varianceReport dim ratios, .roundedReport ratios]
    let sel : Option (Option (List V)) × List (PlotEvent V) :=
      match s.vars_data with
      | some vd =>
        match vd.lookup metric with
        | some values => (some (some values), [])
        | none => (none, [.printStr missingMetricMsg])
      | none => (some none, [])
    let printed1 := printed0 ++ sel.2
    if dim = 2 then
      match sel.1 with
      | none => .error .unboundLocal
      | some var_data =>
        if pyTruthy var_data then
          match pcaSubplot_vars Xr dim (var_data.getD []) (varAxisOf metric) ratios
              labels templates dpiVal with
          | .error e => .error (.render e)
          | .ok out =>
            .ok (s, ⟨printed1, [projName ++ "_PCA.svg", projName ++ "_PCA.png"],
              true, [.vars out]⟩)
        else
          match pcaSubplot Xr dim ratios labels templates dpiVal with
          | .error e => .error (.render e)
          | .ok out =>
            .ok (s, ⟨printed1, [projName ++ "_PCA.svg", projName ++ "_PCA.png"],
              true, [.plain out]⟩)
    else if dim = 3 then
      match sel.1 with
      | none => .error .unboundLocal
      | some var_data =>
        if pyTruthy var_data then
          match pcaSubplot_vars Xr dim (var_data.getD []) (varAxisOf metric) ratios
              labels templates dpiVal with
          | .error e => .error (.render e)
          | .ok out =>
            .ok (s, ⟨printed1, [projName ++ "_PCA3D.svg", projName ++ "_PCA3D.png"],
              true, [.vars out]⟩)
        else
          match pcaSubplot Xr dim ratios labels templates dpiVal with
          | .error e => .error (.render e)
          | .ok out =>
            .ok (s, ⟨printed1, [projName ++ "_PCA3D.svg", projName ++ "_PCA3D.png"],
              true, [.plain out]⟩)
    else .ok (s, ⟨printed1, [], true, []⟩)

/-! ## Concrete instantiations used to evaluate the model -/

/-- A parse function that keeps the column text itself as the value, used
to evaluate the model on concrete inputs. -/
def pfStr : String → Option String := fun s => some s

/-- A degenerate numeric parse function for concrete evaluations whose
values are irrelevant. -/
def pfNat : String → Option Nat := fun _ => some 0

/-- A stand-in for the fitted PCA transform in concrete evaluations: the
projection is the input matrix and no variance ratios are reported. -/
def pcaTid : List (List Nat) → Nat → List (List Nat) × List Nat := fun m _ => (m, [])

/-- A conformation whose file holds one alpha-carbon atom record in the
chain-present format, residue 12. -/
def confA : Conf Nat :=
  ⟨["ATOM 1 CA GLY A 12"], ["012_ALA"], ["012_ALA"], [("tanimoto", 1)]⟩

/-- A conformation whose file is empty. -/
def confB : Conf Nat :=
  ⟨[], ["012_ALA"], ["012_ALA"], [("tanimoto", 2)]⟩

/-! ## Helper lemmas: structure of the extraction -/

theorem getPDBcoordAux_eq (pf : String → Option V) (resNumbers : List String) :
    ∀ (ls : List String) (acc : List V),
      getPDBcoordAux pf resNumbers ls acc =
        (flatCoords pf resNumbers ls).map (fun w => acc ++ w) := by
  intro ls
  induction ls with
  | nil => intro acc; simp [getPDBcoordAux, flatCoords, Except.map]
  | cons l t ih =>
    intro acc
    cases hq : lineCoords pf resNumbers l with
    | error e => simp [getPDBcoordAux, flatCoords, hq, Except.map]
    | ok cs =>
      cases ht : flatCoords pf resNumbers t with
      | error e =>
        simp [getPDBcoordAux, flatCoords, hq, ht, ih (acc ++ cs), Except.map]
      | ok rest =>
        simp [getPDBcoordAux, flatCoords, hq, ht, ih (acc ++ cs), Except.map,
          List.append_assoc]

theorem getPDBcoord_eq_flatCoords (pf : String → Option V)
    (lines resNumbers : List String) :
    getPDBcoord pf lines resNumbers = flatCoords pf resNumbers lines := by
  rw [getPDBcoord, getPDBcoordAux_eq]
  cases flatCoords pf resNumbers lines with
  | error e => rfl
  | ok v => simp [Except.map]

theorem lineCoords_ok (pf : String → Option V) (resNumbers : List String)
    (line : String) (cs : List V) (h : lineCoords pf resNumbers line = .ok cs) :
    cs = if matchedLine resNumbers line then tripleParts pf line else [] := by
  unfold lineCoords at h
  by_cases h1 : 1 < (lineFields line).length
  · rw [if_pos h1] at h
    by_cases h0 : (lineFields line)[0]? = some "ATOM"
    · rw [if_pos h0] at h
      cases h4 : (lineFields line)[4]? with
      | none =>
        simp only [h4] at h
        all_goals exact Except.noConfusion h
      | some f4 =>
        simp only [h4] at h
        by_cases ha : pyIsAlpha f4 = true
        · rw [if_pos ha] at h
          unfold afterCol at h
          cases h5 : (lineFields line)[5]? with
          | none =>
            simp only [h5] at h
            all_goals exact Except.noConfusion h
          | some rv =>
            simp only [h5] at h
            have hrv : residueVal (lineFields line) = some rv := by
              unfold residueVal
              simp only [h4]
              rw [if_pos ha]
              exact h5
            have hml : matchedLine resNumbers line =
                (resNumbers.contains rv && ((lineFields line)[2]? == some "CA")) := by
              unfold matchedLine
              simp only [hrv, decide_eq_true h1, h0, beq_self_eq_true, Bool.true_and]
            by_cases hm : (resNumbers.contains rv &&
                ((lineFields line)[2]? == some "CA")) = true
            · rw [if_pos hm] at h
              rcases hx : pf (pyStrip (pySlice line 31 39)) with _ | x <;>
                rcases hy : pf (pyStrip (pySlice line 39 47)) with _ | y <;>
                rcases hz : pf (pyStrip (pySlice line 47 55)) with _ | z <;>
                simp only [hx, hy, hz] at h <;>
                first
                | exact Except.noConfusion h
                | (injection h with h; subst h
                   rw [hml, hm]
                   simp [tripleParts, hx, hy, hz])
            · rw [if_neg hm] at h
              injection h with h; subst h
              rw [Bool.not_eq_true] at hm
              rw [hml, hm]
              simp
        · rw [if_neg ha] at h
          by_cases hd : pyIsDigit f4 = true
          · rw [if_pos hd] at h
            unfold afterCol at h
            simp only [h4] at h
            have hrv : residueVal (lineFields line) = some f4 := by
              unfold residueVal
              simp only [h4]
              rw [if_neg ha, if_pos hd]
            have hml : matchedLine resNumbers line =
                (resNumbers.contains f4 && ((lineFields line)[2]? == some "CA")) := by
              unfold matchedLine
              simp only [hrv, decide_eq_true h1, h0, beq_self_eq_true, Bool.true_and]
            by_cases hm : (resNumbers.contains f4 &&
                ((lineFields line)[2]? == some "CA")) = true
            · rw [if_pos hm] at h
              rcases hx : pf (pyStrip (pySlice line 31 39)) with _ | x <;>
                rcases hy : pf (pyStrip (pySlice line 39 47)) with _ | y <;>
                rcases hz : pf (pyStrip (pySlice line 47 55)) with _ | z <;>
                simp only [hx, hy, hz] at h <;>
                first
                | exact Except.noConfusion h
                | (injection h with h; subst h
                   rw [hml, hm]
                   simp [tripleParts, hx, hy, hz])
            · rw [if_neg hm] at h
              injection h with h; subst h
              rw [Bool.not_eq_true] at hm
              rw [hml, hm]
              simp
          · rw [if_neg hd] at h
            exact Except.noConfusion h
    · rw [if_neg h0] at h
      injection h with h; subst h
      simp [matchedLine, h0]
  · rw [if_neg h1] at h
    injection h with h; subst h
    simp [matchedLine, h1]

theorem flatCoords_ok (pf : String → Option V) (resNumbers : List String) :
    ∀ (ls : List String) (v : List V), flatCoords pf resNumbers ls = .ok v →
      v = (ls.filter (fun l => matchedLine resNumbers l)).flatMap (tripleParts pf) := by
  intro ls
  induction ls with
  | nil =>
    intro v h
    injection h with h; subst h; rfl
  | cons l t ih =>
    intro v h
    unfold flatCoords at h
    cases hl : lineCoords pf resNumbers l with
    | error e =>
      simp only [hl] at h
      all_goals exact Except.noConfusion h
    | ok cs =>
      simp only [hl] at h
      cases ht : flatCoords pf resNumbers t with
      | error e =>
        simp only [ht] at h
        all_goals exact Except.noConfusion h
      | ok rest =>
        simp only [ht] at h
        injection h with h; subst h
        have hcs := lineCoords_ok pf resNumbers l cs hl
        cases hq : matchedLine resNumbers l with
        | true =>
          simp only [hq, if_true] at hcs
          subst hcs
          simp [List.filter_cons, hq, ih rest ht]
        | false =>
          simp only [hq] at hcs
          subst hcs
          simp [List.filter_cons, hq, ih rest ht]

/-! ## Helper lemmas: the string order used for sorting -/

theorem charsLe_total (x y : List Char) : charsLe x y = true ∨ charsLe y x = true := by
  induction x generalizing y with
  | nil => left; rfl
  | cons a as ih =>
    cases y with
    | nil => right; rfl
    | cons b bs =>
      rcases lt_trichotomy a b with h | h | h
      · left; simp only [charsLe]; rw [if_pos h]
      · subst h
        rcases ih bs with h2 | h2
        · left; simp only [charsLe]; rw [if_neg (lt_irrefl a)]; simpa using h2
        · right; simp only [charsLe]; rw [if_neg (lt_irrefl a)]; simpa using h2
      · right; simp only [charsLe]; rw [if_pos h]

theorem charsLe_antisymm (x y : List Char) (h1 : charsLe x y = true)
    (h2 : charsLe y x = true) : x = y := by
  induction x generalizing y with
  | nil =>
    cases y with
    | nil => rfl
    | cons b bs => simp [charsLe] at h2
  | cons a as ih =>
    cases y with
    | nil => simp [charsLe] at h1
    | cons b bs =>
      simp only [charsLe] at h1 h2
      rcases lt_trichotomy a b with h | h | h
      · rw [if_neg (asymm h), if_neg (ne_of_gt h)] at h2
        exact absurd h2 (by simp)
      · subst h
        rw [if_neg (lt_irrefl a)] at h1 h2
        simp only [if_pos rfl] at h1 h2
        rw [ih bs (by simpa using h1) (by simpa using h2)]
      · rw [if_neg (asymm h), if_neg (ne_of_gt h)] at h1
        exact absurd h1 (by simp)

theorem charsLe_trans (x y z : List Char) (h1 : charsLe x y = true)
    (h2 : charsLe y z = true) : charsLe x z = true := by
  induction x generalizing y z with
  | nil => rfl
  | cons a as ih =>
    cases y with
    | nil => simp [charsLe] at h1
    | cons b bs =>
      cases z with
      | nil => simp [charsLe] at h2
      | cons c cs =>
        simp only [charsLe] at h1 h2 ⊢
        by_cases hab : a < b
        · by_cases hbc : b < c
          · rw [if_pos (lt_trans hab hbc)]
          · rw [if_neg hbc] at h2
            by_cases hbc2 : b = c
            · subst hbc2; rw [if_pos hab]
            · rw [if_neg hbc2] at h2; exact absurd h2 (by simp)
        · rw [if_neg hab] at h1
          by_cases hab2 : a = b
          · subst hab2
            rw [if_pos rfl] at h1
            by_cases hac : a < c
            · rw [if_pos hac]
            · rw [if_neg hac] at h2 ⊢
              by_cases hac2 : a = c
              · rw [if_pos hac2] at h2
                rw [if_pos hac2]
                exact ih bs cs h1 h2
              · rw [if_neg hac2] at h2; exact absurd h2 (by simp)
          · rw [if_neg hab2] at h1; exact absurd h1 (by simp)

theorem pySorted_eq_of_perm {l1 l2 : List String} (p : List.Perm l1 l2) :
    pySorted l1 = pySorted l2 :=
  @List.eq_of_perm_of_sorted String strLeP
    ⟨fun a b h1 h2 => by
      cases a; cases b; exact congrArg String.mk (charsLe_antisymm _ _ h1 h2)⟩
    _ _
    (((List.perm_insertionSort _ l1).trans p).trans
      (List.perm_insertionSort _ l2).symm)
    (@List.sorted_insertionSort String strLeP _
      ⟨fun a b => charsLe_total a.data b.data⟩
      ⟨fun a b c => charsLe_trans a.data b.data c.data⟩ l1)
    (@List.sorted_insertionSort String strLeP _
      ⟨fun a b => charsLe_total a.data b.data⟩
      ⟨fun a b c => charsLe_trans a.data b.data c.data⟩ l2)

/-! ## Helper lemmas: association list lookup under permutation -/

theorem lookup_eq_of_perm {β : Type} {l1 l2 : List (String × β)}
    (p : List.Perm l1 l2) (nd : (l1.map Prod.fst).Nodup) (a : String) :
    l1.lookup a = l2.lookup a := by
  induction p with
  | nil => rfl
  | cons x p ih =>
    obtain ⟨k, v⟩ := x
    rw [List.map_cons, List.nodup_cons] at nd
    simp only [List.lookup]
    cases hak : a == k with
    | true => rfl
    | false => exact ih nd.2
  | swap x y l =>
    obtain ⟨k1, v1⟩ := x
    obtain ⟨k2, v2⟩ := y
    rw [List.map_cons, List.map_cons, List.nodup_cons] at nd
    have hne : k2 ≠ k1 := by
      intro hc
      exact nd.1 (by rw [hc]; exact List.mem_cons_self _ _)
    simp only [List.lookup]
    cases hak2 : a == k2 with
    | true =>
      cases hak1 : a == k1 with
      | true =>
        exact absurd ((beq_iff_eq.mp hak2).symm.trans (beq_iff_eq.mp hak1)) hne
      | false => rfl
    | false =>
      cases hak1 : a == k1 with
      | true => rfl
      | false => rfl
  | trans p1 p2 ih1 ih2 =>
    exact (ih1 nd).trans (ih2 ((p1.map Prod.fst).nodup nd))

/-! ## Helper lemmas: loop congruence in the conformation accessor -/

theorem coordsLoop_congr (pf : String → Option V)
    (f1 f2 : String → Option (Conf V)) (b : Bool) (hf : ∀ n, f1 n = f2 n) :
    ∀ ns, coordsLoop pf f1 b ns = coordsLoop pf f2 b ns := by
  intro ns
  induction ns with
  | nil => rfl
  | cons n t ih =>
    cases hq : f2 n with
    | none => simp only [coordsLoop, hf n, hq]
    | some c =>
      cases hc : confCoords pf b c with
      | error e => simp only [coordsLoop, hf n, hq, hc]
      | ok v => simp only [coordsLoop, hf n, hq, hc, ih]

theorem metricLoop_congr (f1 f2 : String → Option (Conf V)) (hf : ∀ n, f1 n = f2 n) :
    ∀ ns vd, metricLoop f1 ns vd = metricLoop f2 ns vd := by
  intro ns
  induction ns with
  | nil => intro vd; rfl
  | cons n t ih =>
    intro vd
    cases hq : f2 n with
    | none => simp only [metricLoop, hf n, hq]
    | some c =>
      cases hi : innerMetricLoop c (pySorted (vd.map Prod.fst)) vd with
      | error e => simp only [metricLoop, hf n, hq, hi]
      | ok vd2 =>
        simp only [metricLoop, hf n, hq, hi]
        exact ih vd2

/-! ## Helper lemmas: the template partition of the renderer -/

theorem splitTemplatesAux_eq (template_list : List String) :
    ∀ (ts : List (String × V × List V)) (tp : List (List V)) (cd : List V)
      (cp : List (List V)),
      splitTemplatesAux template_list ts tp cd cp =
        (tp ++ (ts.filter (fun t => template_list.contains t.1)).map (fun t => t.2.2),
         cd ++ (ts.filter (fun t => !template_list.contains t.1)).map (fun t => t.2.1),
         cp ++ (ts.filter (fun t => !template_list.contains t.1)).map (fun t => t.2.2)) := by
  intro ts
  induction ts with
  | nil => intro tp cd cp; simp [splitTemplatesAux]
  | cons t rest ih =>
    obtain ⟨l, d, x⟩ := t
    intro tp cd cp
    cases hq : template_list.contains l with
    | true =>
      have hq2 : l ∈ template_list := by simpa using hq
      simp only [splitTemplatesAux, hq, if_true]
      rw [ih]
      simp [List.filter_cons, hq2, List.append_assoc]
    | false =>
      have hq2 : l ∉ template_list := by simpa using hq
      simp only [splitTemplatesAux, hq, Bool.false_eq_true, if_false]
      rw [ih]
      simp [List.filter_cons, hq2, List.append_assoc]

/-! ## Helper lemmas: digits are not alphabetic -/

theorem char_digit_not_alpha (ch : Char) (h : ch.isDigit = true) : ch.isAlpha = false := by
  simp only [Char.isDigit, Bool.and_eq_true, decide_eq_true_eq] at h
  simp only [Char.isAlpha, Char.isUpper, Char.isLower, Bool.or_eq_false_iff,
    Bool.and_eq_false_iff, decide_eq_false_iff_not, not_le]
  obtain ⟨ha, hb⟩ := h
  simp only [ge_iff_le, UInt32.le_def, UInt32.lt_def, BitVec.le_def, BitVec.lt_def,
    show (UInt32.toBitVec 48).toNat = 48 from rfl,
    show (UInt32.toBitVec 57).toNat = 57 from rfl,
    show (UInt32.toBitVec 65).toNat = 65 from rfl,
    show (UInt32.toBitVec 90).toNat = 90 from rfl,
    show (UInt32.toBitVec 97).toNat = 97 from rfl,
    show (UInt32.toBitVec 122).toNat = 122 from rfl] at *
  omega

theorem pyIsDigit_not_alpha (s : String) (h : pyIsDigit s = true) :
    pyIsAlpha s = false := by
  obtain ⟨l⟩ := s
  cases l with
  | nil =>
    replace h : (!(List.nil (α := Char)).isEmpty &&
        (List.nil (α := Char)).all (fun c => c.isDigit)) = true := h
    simp at h
  | cons c t =>
    replace h : (!(c :: t).isEmpty && (c :: t).all (fun c => c.isDigit)) = true := h
    show (!(c :: t).isEmpty && (c :: t).all (fun c => c.isAlpha)) = false
    rw [Bool.and_eq_true] at h
    rw [List.all_cons, Bool.and_eq_true] at h
    simp [List.all_cons, char_digit_not_alpha c h.2.1]

/-! ## Helper lemmas: lines that resolve without a fatal outcome -/

theorem lineOk_unmatched (pf : String → Option V) (resNumbers : List String)
    (line : String) (hok : lineOk line = true)
    (hnm : matchedLine resNumbers line = false) :
    lineCoords pf resNumbers line = .ok [] := by
  unfold lineCoords
  by_cases h1 : 1 < (lineFields line).length
  · rw [if_pos h1]
    by_cases h0 : (lineFields line)[0]? = some "ATOM"
    · rw [if_pos h0]
      have hok2 : (match (lineFields line)[4]? with
          | none => false
          | some f4 => if pyIsAlpha f4 then ((lineFields line)[5]?).isSome
                       else pyIsDigit f4) = true := by
        unfold lineOk at hok
        simpa [h1, h0] using hok
      cases h4 : (lineFields line)[4]? with
      | none =>
        simp only [h4] at hok2
        exact Bool.noConfusion hok2
      | some f4 =>
        simp only [h4] at hok2
        show (if pyIsAlpha f4 = true then afterCol pf resNumbers line (lineFields line) 5
              else if pyIsDigit f4 = true then afterCol pf resNumbers line (lineFields line) 4
              else Except.error ExtractErr.formatExit) = Except.ok []
        by_cases ha : pyIsAlpha f4 = true
        · rw [if_pos ha] at hok2
          rw [if_pos ha]
          obtain ⟨rv, h5⟩ := Option.isSome_iff_exists.mp hok2
          have hrv : residueVal (lineFields line) = some rv := by
            unfold residueVal
            simp only [h4]
            rw [if_pos ha]
            exact h5
          have hml : matchedLine resNumbers line =
              (resNumbers.contains rv && ((lineFields line)[2]? == some "CA")) := by
            unfold matchedLine
            simp only [hrv, decide_eq_true h1, h0, beq_self_eq_true, Bool.true_and]
          rw [hml] at hnm
          unfold afterCol
          simp only [h5]
          rw [if_neg (by rw [hnm]; exact Bool.false_ne_true)]
        · rw [if_neg ha] at hok2 ⊢
          rw [if_pos hok2]
          have hrv : residueVal (lineFields line) = some f4 := by
            unfold residueVal
            simp only [h4]
            rw [if_neg ha, if_pos hok2]
          have hml : matchedLine resNumbers line =
              (resNumbers.contains f4 && ((lineFields line)[2]? == some "CA")) := by
            unfold matchedLine
            simp only [hrv, decide_eq_true h1, h0, beq_self_eq_true, Bool.true_and]
          rw [hml] at hnm
          unfold afterCol
          simp only [h4]
          rw [if_neg (by rw [hnm]; exact Bool.false_ne_true)]
    · rw [if_neg h0]
  · rw [if_neg h1]

theorem flatCoords_all_unmatched (pf : String → Option V) (resNumbers : List String) :
    ∀ ls : List String, (∀ l ∈ ls, lineOk l = true) →
      (∀ l ∈ ls, matchedLine resNumbers l = false) →
      flatCoords pf resNumbers ls = .ok [] := by
  intro ls
  induction ls with
  | nil => intro _ _; rfl
  | cons l t ih =>
    intro hok hnm
    have hl := lineOk_unmatched pf resNumbers l (hok l (List.mem_cons_self l t))
      (hnm l (List.mem_cons_self l t))
    simp [flatCoords, hl,
      ih (fun x hx => hok x (List.mem_cons_of_mem l hx))
        (fun x hx => hnm x (List.mem_cons_of_mem l hx))]

/-! ## Helper lemmas: chain-present versus chain-absent extraction -/

theorem lineCoords_chainPair (pf : String → Option V) (resNumbers : List String)
    {c n : String} (h : chainPair c n) :
    lineCoords pf resNumbers c = lineCoords pf resNumbers n := by
  obtain ⟨hc0, hn0, hca, hnd, hres, h2s, hs1, hs2, hs3⟩ := h
  cases hc4 : (lineFields c)[4]? with
  | none =>
    rw [hc4] at hca
    exact Bool.noConfusion hca
  | some f4c =>
  cases hn4 : (lineFields n)[4]? with
  | none =>
    rw [hn4] at hnd
    exact Bool.noConfusion hnd
  | some f4n =>
  rw [hc4] at hca
  rw [hn4] at hnd hres
  replace hca : pyIsAlpha f4c = true := hca
  replace hnd : pyIsDigit f4n = true := hnd
  have hna : pyIsAlpha f4n = false := pyIsDigit_not_alpha f4n hnd
  have hlc : 1 < (lineFields c).length := by
    obtain ⟨hlt, _⟩ := List.getElem?_eq_some.mp hc4
    omega
  have hln : 1 < (lineFields n).length := by
    obtain ⟨hlt, _⟩ := List.getElem?_eq_some.mp hn4
    omega
  unfold lineCoords
  rw [if_pos hlc, if_pos hln, if_pos hc0, if_pos hn0]
  simp only [hc4, hn4]
  rw [if_pos hca, hna, if_neg Bool.false_ne_true, if_pos hnd]
  unfold afterCol
  simp only [hres, hn4]
  rw [h2s, hs1, hs2, hs3]

theorem flatCoords_lineEquiv (pf : String → Option V) (resNumbers : List String)
    {ls1 ls2 : List String} (h : List.Forall₂ lineEquiv ls1 ls2) :
    flatCoords pf resNumbers ls1 = flatCoords pf resNumbers ls2 := by
  induction h with
  | nil => rfl
  | @cons a b l1 l2 hab ht ih =>
    have hl : lineCoords pf resNumbers a = lineCoords pf resNumbers b := by
      rcases hab with heq | hcp
      · rw [heq]
      · exact lineCoords_chainPair pf resNumbers hcp
    simp only [flatCoords, hl, ih]

/-! ## Helper lemmas: the residue key normalisation -/

theorem splitPred_ne_nil (p : Char → Bool) (l : List Char) : splitPred p l ≠ [] := by
  cases l with
  | nil => simp [splitPred]
  | cons a t =>
    unfold splitPred
    by_cases h : p a = true
    · rw [if_pos h]; simp
    · rw [if_neg h]
      cases hsp : splitPred p t with
      | nil => simp
      | cons hh r => simp

theorem headD_splitPred (p : Char → Bool) (l : List Char) :
    (splitPred p l).headD [] = l.takeWhile (fun c => !(p c)) := by
  induction l with
  | nil => rfl
  | cons a t ih =>
    unfold splitPred
    by_cases h : p a = true
    · rw [if_pos h]
      simp [List.takeWhile_cons, h]
    · rw [if_neg h]
      have hpa : p a = false := by
        cases hq : p a with
        | true => exact absurd hq h
        | false => rfl
      cases hsp : splitPred p t with
      | nil => exact absurd hsp (splitPred_ne_nil p t)
      | cons hh r =>
        rw [hsp] at ih
        simp only [hsp, List.headD_cons] at ih ⊢
        rw [List.takeWhile_cons]
        simp [hpa, ih]

theorem resKeyOf_spec (x : String) :
    resKeyOf x = String.mk ((x.data.takeWhile (fun c => c != '_')).dropWhile
      (fun c => c == '0')) := by
  unfold resKeyOf
  rw [headD_splitPred]
  have h1 : (fun c : Char => c != '_') = (fun c : Char => !(decide (c = '_'))) := by
    funext c
    by_cases h : c = '_' <;> simp [h]
  have h2 : (fun c : Char => c == '0') = (fun c : Char => decide (c = '0')) := by
    funext c
    by_cases h : c = '0' <;> simp [h]
  rw [h1, h2]

/-! ## Claim theorems -/

/-- Claim C1 (code bug): with a metric table collected but the requested
metric absent from it, plotPCAfig prints the (malformed) warning and then
crashes with an UnboundLocalError at the var_data truthiness test, instead
of completing the figure through the uncolored rendering path as the
specification describes. -/
theorem claim_C1_missing_metric_crash :
    plotPCAfig pcaTid ⟨[("confA", confA)], some [[1, 2]], some [("tanimoto", [1])]⟩
      "proj" "jaccard" ["confA"] 2 [] = .error .unboundLocal := rfl

/-- Claim C2: when extraction succeeds but two conformations have feature
vectors of different lengths, makePCAcoords terminates the run with the
length-mismatch diagnostic that reports every conformation name together
with its vector length, and no state carrying a feature matrix is
produced. -/
theorem claim_C2_length_mismatch (pf : String → Option V) (s : PState V) (b : Bool)
    (coords : List (List V)) (hE : extractAll pf s b = .ok coords)
    (hdiff : ∃ x ∈ coords, ∃ y ∈ coords, x.length ≠ y.length) :
    makePCAcoords pf s b = .error (.lengthMismatch
      ((pySorted (s.conformations.map Prod.fst)).zip (coords.map List.length))) := by
  unfold makePCAcoords
  simp only [hE]
  have hlen : coords.all (fun x => x.length == (coords.headD []).length) = false := by
    cases hq : coords.all (fun x => x.length == (coords.headD []).length) with
    | false => rfl
    | true =>
      exfalso
      rw [List.all_eq_true] at hq
      obtain ⟨x, hx, y, hy, hne⟩ := hdiff
      have h1 := beq_iff_eq.mp (hq x hx)
      have h2 := beq_iff_eq.mp (hq y hy)
      exact hne (h1.trans h2.symm)
  rw [hlen]
  simp only [Bool.not_false]
  rw [if_pos trivial]

/-- Claim C2 witness: a two-conformation batch where one file contributes
three coordinates and the other none ends in the length-mismatch
diagnostic with the per-conformation report. -/
theorem claim_C2_length_mismatch_witness :
    makePCAcoords pfNat ⟨[("a", confA), ("b", confB)], none, none⟩ true =
      .error (.lengthMismatch [("a", 3), ("b", 0)]) :=
  claim_C2_length_mismatch pfNat ⟨[("a", confA), ("b", confB)], none, none⟩ true
    [[0, 0, 0], []] rfl ⟨[0, 0, 0], by decide, [], by decide, by decide⟩

/-- Claim C3 counterexample: an atom-record line with more than one field
but no field 4 at all ("ATOM X") does not reach the printed format
diagnostic; the run dies with an uncaught IndexError instead, which is a
different termination path than the one the claim describes. -/
theorem claim_C3_counterexample :
    getPDBcoord pfNat ["ATOM X"] [] = .error .indexErr ∧
      ExtractErr.indexErr ≠ ExtractErr.formatExit :=
  ⟨rfl, by decide⟩

/-- Claim C3 (amended): on an atom-record line, when field 4 exists the
extractor resolves the residue column from field 5 for an alphabetic
field 4 and from field 4 for a numeric one, and any other content of
field 4 prints the format diagnostic and terminates; when field 4 does
not exist the run terminates through an uncaught IndexError without that
diagnostic. -/
theorem claim_C3_amended (pf : String → Option V) (resNumbers : List String)
    (line : String) (h1 : 1 < (lineFields line).length)
    (h0 : (lineFields line)[0]? = some "ATOM") :
    ((lineFields line)[4]? = none → lineCoords pf resNumbers line = .error .indexErr) ∧
    (∀ f4, (lineFields line)[4]? = some f4 →
      (pyIsAlpha f4 = true →
        lineCoords pf resNumbers line = afterCol pf resNumbers line (lineFields line) 5) ∧
      (pyIsAlpha f4 = false → pyIsDigit f4 = true →
        lineCoords pf resNumbers line = afterCol pf resNumbers line (lineFields line) 4) ∧
      (pyIsAlpha f4 = false → pyIsDigit f4 = false →
        lineCoords pf resNumbers line = .error .formatExit)) := by
  constructor
  · intro h4
    unfold lineCoords
    rw [if_pos h1, if_pos h0]
    simp only [h4]
  · intro f4 h4
    refine ⟨fun ha => ?_, fun ha hd => ?_, fun ha hd => ?_⟩
    · unfold lineCoords
      rw [if_pos h1, if_pos h0]
      simp only [h4]
      rw [if_pos ha]
    · unfold lineCoords
      rw [if_pos h1, if_pos h0]
      simp only [h4]
      rw [ha, if_neg Bool.false_ne_true, if_pos hd]
    · unfold lineCoords
      rw [if_pos h1, if_pos h0]
      simp only [h4]
      rw [ha, if_neg Bool.false_ne_true, hd, if_neg Bool.false_ne_true]

/-- Claim C3 amended witness: a chain-present atom record resolves its
residue column to field 5. -/
theorem claim_C3_amended_witness :
    lineCoords pfNat ["12"] "ATOM 1 CA GLY A 12" =
      afterCol pfNat ["12"] "ATOM 1 CA GLY A 12" (lineFields "ATOM 1 CA GLY A 12") 5 :=
  ((claim_C3_amended pfNat ["12"] "ATOM 1 CA GLY A 12" (by decide) (by decide)).2 "A"
    (by decide)).1 (by decide)

/-- Claim C4: a successful extraction returns exactly the concatenation,
in line-encounter order, of the parsed x, y, z column slices (offsets
31-39, 39-47, 47-55) of the matched alpha-carbon lines, and the residue
filter is built from the collaborator identifiers by taking the part
before the first underscore with leading zeros stripped. -/
theorem claim_C4_extraction (pf : String → Option V)
    (lines resNumbers resList : List String) (v : List V)
    (h : getPDBcoord pf lines resNumbers = .ok v) :
    v = (lines.filter (fun l => matchedLine resNumbers l)).flatMap (tripleParts pf) ∧
    resNumbersOf resList = resList.map (fun x =>
      String.mk ((x.data.takeWhile (fun c => c != '_')).dropWhile (fun c => c == '0'))) := by
  constructor
  · rw [getPDBcoord_eq_flatCoords] at h
    exact flatCoords_ok pf resNumbers lines v h
  · unfold resNumbersOf
    have hfe : resKeyOf = fun x => String.mk
        ((x.data.takeWhile (fun c => c != '_')).dropWhile (fun c => c == '0')) :=
      funext resKeyOf_spec
    rw [hfe]

/-- Claim C4 witness: one matched chain-present alpha-carbon line yields
its three column slices, and a leading-zero identifier normalises to its
number. -/
theorem claim_C4_extraction_witness :
    (["", "", ""] : List String) =
      ((["ATOM 1 CA GLY A 12"].filter (fun l => matchedLine ["12"] l)).flatMap
        (tripleParts pfStr)) ∧
    resNumbersOf ["012_ALA"] = ["012_ALA"].map (fun x =>
      String.mk ((x.data.takeWhile (fun c => c != '_')).dropWhile (fun c => c == '0'))) :=
  claim_C4_extraction pfStr ["ATOM 1 CA GLY A 12"] ["12"] ["012_ALA"] ["", "", ""] rfl

/-- Claim C5: two structure files whose lines pairwise describe the same
atoms, one in the chain-present and one in the chain-absent layout,
extract to the same coordinate vector under the same residue filter. -/
theorem claim_C5_chain_equivalence (pf : String → Option V)
    (fileC fileN resNumbers : List String)
    (h : List.Forall₂ lineEquiv fileC fileN) :
    getPDBcoord pf fileC resNumbers = getPDBcoord pf fileN resNumbers := by
  rw [getPDBcoord_eq_flatCoords, getPDBcoord_eq_flatCoords]
  exact flatCoords_lineEquiv pf resNumbers h

/-- Claim C5 witness: the same alpha-carbon record with and without a
chain column extracts identically. -/
theorem claim_C5_chain_equivalence_witness :
    getPDBcoord pfStr ["ATOM 1 CA GLY A 12"] ["12"] =
      getPDBcoord pfStr ["ATOM 1 CA GLY 12"] ["12"] :=
  claim_C5_chain_equivalence pfStr ["ATOM 1 CA GLY A 12"] ["ATOM 1 CA GLY 12"] ["12"]
    (List.Forall₂.cons
      (Or.inr (by
        unfold chainPair
        exact ⟨rfl, rfl, rfl, rfl, rfl, rfl, rfl, rfl, rfl⟩))
      List.Forall₂.nil)

/-- Claim C6: both makePCAcoords and makePCAmetric iterate the
conformations in the sorted order of their names, so permuting the
mapping (with distinct names) changes neither the produced feature matrix
nor the produced metric table, and the two stay positionally aligned. -/
theorem claim_C6_sorted_order (pf : String → Option V) (s1 s2 : PState V)
    (b : Bool) (metric : String)
    (hp : List.Perm s1.conformations s2.conformations)
    (hnd : (s1.conformations.map Prod.fst).Nodup) :
    pySorted (s1.conformations.map Prod.fst) =
      pySorted (s2.conformations.map Prod.fst) ∧
    (makePCAcoords pf s1 b).map PState.pcaCoordsArray =
      (makePCAcoords pf s2 b).map PState.pcaCoordsArray ∧
    (makePCAmetric s1 metric).map PState.vars_data =
      (makePCAmetric s2 metric).map PState.vars_data := by
  have hkeys : pySorted (s1.conformations.map Prod.fst) =
      pySorted (s2.conformations.map Prod.fst) :=
    pySorted_eq_of_perm (hp.map Prod.fst)
  have hlook : ∀ n, s1.conformations.lookup n = s2.conformations.lookup n :=
    fun n => lookup_eq_of_perm hp hnd n
  refine ⟨hkeys, ?_, ?_⟩
  · have hEq : extractAll pf s1 b = extractAll pf s2 b := by
      unfold extractAll
      rw [hkeys]
      exact coordsLoop_congr pf _ _ b hlook _
    unfold makePCAcoords
    rw [hEq, hkeys]
    cases hq : extractAll pf s2 b with
    | error e => simp only [hq]
    | ok coords =>
      simp only [hq]
      by_cases hl : (!(coords.all (fun x => x.length == (coords.headD []).length))) = true
      · rw [if_pos hl, if_pos hl]
      · rw [if_neg hl, if_neg hl]
        by_cases he : (coords.all (fun x => x.length == 0)) = true
        · rw [if_pos he, if_pos he]
        · rw [if_neg he, if_neg he]
          rfl
  · have hM : metricLoop (fun n => s1.conformations.lookup n)
        (pySorted (s1.conformations.map Prod.fst)) [(metric, [])] =
      metricLoop (fun n => s2.conformations.lookup n)
        (pySorted (s2.conformations.map Prod.fst)) [(metric, [])] := by
      rw [hkeys]
      exact metricLoop_congr _ _ hlook _ _
    unfold makePCAmetric
    rw [hM]
    cases hq : metricLoop (fun n => s2.conformations.lookup n)
        (pySorted (s2.conformations.map Prod.fst)) [(metric, [])] with
    | error e => simp only [hq]
    | ok vd =>
      simp only [hq]
      rfl

/-- Claim C6 witness: reversing the insertion order of a two-conformation
mapping leaves the sorted processing order, the feature matrix and the
metric table unchanged. -/
theorem claim_C6_sorted_order_witness :
    pySorted (([("b", confB), ("a", confA)] : List (String × Conf Nat)).map Prod.fst) =
      pySorted (([("a", confA), ("b", confB)] : List (String × Conf Nat)).map Prod.fst) ∧
    (makePCAcoords pfNat ⟨[("b", confB), ("a", confA)], none, none⟩ true).map
        PState.pcaCoordsArray =
      (makePCAcoords pfNat ⟨[("a", confA), ("b", confB)], none, none⟩ true).map
        PState.pcaCoordsArray ∧
    (makePCAmetric ⟨[("b", confB), ("a", confA)], none, none⟩ "tanimoto").map
        PState.vars_data =
      (makePCAmetric ⟨[("a", confA), ("b", confB)], none, none⟩ "tanimoto").map
        PState.vars_data :=
  claim_C6_sorted_order pfNat ⟨[("b", confB), ("a", confA)], none, none⟩
    ⟨[("a", confA), ("b", confB)], none, none⟩ true "tanimoto"
    (List.Perm.swap ("a", confA) ("b", confB) []) (by decide)

/-- Claim C7: a structure file whose lines all resolve and match nothing
extracts to the empty feature vector without error, and a batch whose
extraction succeeds with every feature vector empty terminates with the
distinct emptiness diagnostic. -/
theorem claim_C7_empty_handling (V : Type) :
    (∀ (pf : String → Option V) (lines resNumbers : List String),
      (∀ l ∈ lines, lineOk l = true) →
      (∀ l ∈ lines, matchedLine resNumbers l = false) →
      getPDBcoord pf lines resNumbers = .ok []) ∧
    (∀ (pf : String → Option V) (s : PState V) (b : Bool) (coords : List (List V)),
      extractAll pf s b = .ok coords →
      (∀ cvec ∈ coords, cvec = ([] : List V)) →
      makePCAcoords pf s b = .error .emptyCoords) := by
  constructor
  · intro pf lines resNumbers hok hnm
    rw [getPDBcoord_eq_flatCoords]
    exact flatCoords_all_unmatched pf resNumbers lines hok hnm
  · intro pf s b coords hE hall
    unfold makePCAcoords
    simp only [hE]
    have hlen : coords.all (fun x => x.length == (coords.headD []).length) = true := by
      cases hc : coords with
      | nil => rfl
      | cons c0 t =>
        rw [List.all_eq_true]
        intro x hx
        have hx0 : x = [] := hall x (by rw [hc]; exact hx)
        have hc0 : c0 = [] := hall c0 (by rw [hc]; exact List.mem_cons_self c0 t)
        rw [hx0, List.headD_cons, hc0]
        rfl
    have hempty : coords.all (fun x => x.length == 0) = true := by
      rw [List.all_eq_true]
      intro x hx
      rw [hall x hx]
      rfl
    rw [hlen]
    simp only [Bool.not_true]
    rw [if_neg Bool.false_ne_true, if_pos hempty]

/-- Claim C7 witness: a remark-only file extracts to the empty vector,
and a batch of one conformation with an empty file exits with the
emptiness diagnostic. -/
theorem claim_C7_empty_handling_witness :
    getPDBcoord pfNat ["REMARK text"] ["1"] = .ok [] ∧
    makePCAcoords pfNat ⟨[("b", confB)], none, none⟩ true = .error .emptyCoords :=
  ⟨(claim_C7_empty_handling Nat).1 pfNat ["REMARK text"] ["1"] (by decide) (by decide),
   (claim_C7_empty_handling Nat).2 pfNat ⟨[("b", confB)], none, none⟩ true [[]] rfl
     (by decide)⟩

/-- Claim C8 counterexample: a 2D chart annotates a point whose label is
the empty string (the annotation call is issued with the empty text), so
it is not the case that empty-labeled points receive no annotation in
every rendered chart. -/
theorem claim_C8_counterexample :
    pcaSubplot (V := Nat) [[0, 0], [1, 1]] 2 [] ["", "B"] [] 800 =
      .ok ⟨[("", [0, 0]), ("B", [1, 1])]⟩ := rfl

/-- Claim C8 (amended): the empty-label guard exists only in the 3D
rendering paths.  3D charts (with or without a metric) annotate exactly
the points with nonempty labels; 2D charts annotate every point, the
empty-labeled ones included. -/
theorem claim_C8_annotation_rule (X_r : List (List V)) (varData : List V)
    (varName : String) (PCs_round : List V) (labels template_list : List String)
    (dpiVal : Nat) :
    (pcaSubplot_vars X_r 2 varData varName PCs_round labels template_list dpiVal).map
        VarsOut.annots =
      (pcaSubplot_vars X_r 2 varData varName PCs_round labels template_list dpiVal).map
        (fun _ => labels.zip X_r) ∧
    (pcaSubplot_vars X_r 3 varData varName PCs_round labels template_list dpiVal).map
        VarsOut.annots =
      (pcaSubplot_vars X_r 3 varData varName PCs_round labels template_list dpiVal).map
        (fun _ => (labels.zip X_r).filter (fun p => p.1 != "")) ∧
    pcaSubplot X_r 2 PCs_round labels template_list dpiVal = .ok ⟨labels.zip X_r⟩ ∧
    pcaSubplot X_r 3 PCs_round labels template_list dpiVal =
      .ok ⟨(labels.zip X_r).filter (fun p => p.1 != "")⟩ := by
  refine ⟨?_, ?_, rfl, rfl⟩
  · unfold pcaSubplot_vars
    rcases hsp : splitTemplates labels varData X_r template_list with ⟨tp, cd, cp⟩
    simp only [hsp]
    by_cases hcp : cp.isEmpty = true
    · simp [hcp, Except.map]
    · by_cases htp : tp.isEmpty = true
      · simp [hcp, htp, Except.map]
      · simp [hcp, htp, Except.map]
  · unfold pcaSubplot_vars
    rcases hsp : splitTemplates labels varData X_r template_list with ⟨tp, cd, cp⟩
    simp only [hsp]
    by_cases hcp : cp.isEmpty = true
    · simp [hcp, Except.map]
    · by_cases htp : tp.isEmpty = true
      · simp [hcp, htp, Except.map]
      · simp [hcp, htp, Except.map]

/-- Claim C9: in the metric-colored rendering, the scatter groups of
pcaSubplot_vars partition zip(labels, varData, X_r) by template
membership of the label: template-labeled points contribute only their
position to the template group (the metric value is dropped), and the
remaining points contribute their metric value and position to the
color-mapped group. -/
theorem claim_C9_template_precedence (X_r : List (List V)) (dim : Nat)
    (varData : List V) (varName : String) (PCs_round : List V)
    (labels template_list : List String) (dpiVal : Nat) :
    (pcaSubplot_vars X_r dim varData varName PCs_round labels template_list dpiVal).map
        (fun o => (o.templatePosition, o.confData, o.confPosition)) =
      (pcaSubplot_vars X_r dim varData varName PCs_round labels template_list dpiVal).map
        (fun _ =>
          (((labels.zip (varData.zip X_r)).filter
              (fun t => template_list.contains t.1)).map (fun t => t.2.2),
           ((labels.zip (varData.zip X_r)).filter
              (fun t => !template_list.contains t.1)).map (fun t => t.2.1),
           ((labels.zip (varData.zip X_r)).filter
              (fun t => !template_list.contains t.1)).map (fun t => t.2.2))) := by
  have hsp : splitTemplates labels varData X_r template_list =
      (((labels.zip (varData.zip X_r)).filter
          (fun t => template_list.contains t.1)).map (fun t => t.2.2),
       ((labels.zip (varData.zip X_r)).filter
          (fun t => !template_list.contains t.1)).map (fun t => t.2.1),
       ((labels.zip (varData.zip X_r)).filter
          (fun t => !template_list.contains t.1)).map (fun t => t.2.2)) := by
    unfold splitTemplates
    rw [splitTemplatesAux_eq]
    simp
  unfold pcaSubplot_vars
  simp only [hsp]
  repeat' split
  all_goals rfl

/-- Claim C10: calling plotPCAfig before any feature matrix exists
(pcaCoordsArray is None) returns normally after printing the two
diagnostic lines: no error, no PCA fit, no file written, no subplot
issued, and the instance state is returned unchanged. -/
theorem claim_C10_not_ready (pcaT : List (List V) → Nat → List (List V) × List V)
    (s : PState V) (projName metric : String) (labels : List String) (dim : Nat)
    (templates : List String) (h : s.pcaCoordsArray = none) :
    plotPCAfig pcaT s projName metric labels dim templates =
      .ok (s, ⟨[.printStr notReadyMsg1, .printStr notReadyMsg2], [], false, []⟩) := by
  unfold plotPCAfig
  simp only [h]

/-- Claim C10 witness: a fresh instance that never ran makePCAcoords only
prints the diagnostic and keeps its state. -/
theorem claim_C10_not_ready_witness :
    plotPCAfig pcaTid ⟨[("a", confA)], none, none⟩ "proj" "tanimoto" ["a"] 2 [] =
      .ok (⟨[("a", confA)], none, none⟩,
        ⟨[.printStr notReadyMsg1, .printStr notReadyMsg2], [], false, []⟩) :=
  claim_C10_not_ready pcaTid ⟨[("a", confA)], none, none⟩ "proj" "tanimoto" ["a"] 2 []
    rfl

end ToolbxPdb
